import Mathlib

/-!
Verification development for the PSX prediction application
(feature-reconstruction service and its frontend helpers).

Frontend source files are embedded directly from the repository's
JavaScript; the Flask backend (symbol encoder, lag resolver, feature
assembler, prediction orchestrator) is not part of the shipped sources,
so those components are modelled from the specification text.
-/

namespace IDS

/-- Model of a JavaScript value as it appears in the chart/table rows:
either `undefined`, `null`, `NaN`, or a finite number (as a rational). -/
inductive JsVal where
  | undef : JsVal
  | null : JsVal
  | nan : JsVal
  | num : ℚ → JsVal
deriving DecidableEq, Repr

/-- JavaScript truthiness of a `JsVal`: only a non-zero finite number is
truthy among the values we model. -/
def JsVal.truthy : JsVal → Bool
  | .num q => decide (q ≠ 0)
  | _ => false

/-- JavaScript `a || b`. -/
def JsVal.orJs (a b : JsVal) : JsVal := if a.truthy then a else b

/-- JavaScript `Number(v) || 0` as used in `movingAverage`'s reducer:
a finite number passes through (zero stays zero), everything else
(missing, `null`, `NaN`) is coerced to `0`. -/
def JsVal.coerceOrZero : JsVal → ℚ
  | .num q => q
  | _ => 0

/-- JavaScript `value != null && !isNaN(value) ? Number(value) : null`
as used in `calculateMA`: a finite number survives, everything else
is dropped. -/
def JsVal.toNumOpt : JsVal → Option ℚ
  | .num q => some q
  | _ => none

/-- A data row is a field-indexed record of JavaScript values
(for example the keys are Date, Open, High, Low, Close, Volume). -/
abbrev Row := String → JsVal

/-- A row with no fields, standing for `undefined` lookups. -/
def dummyRow : Row := fun _ => JsVal.undef

/-- Embedding of `movingAverage` from
`Frontend/src/services/utils:formatters.js`:
entries below the window return `null`; otherwise the JS code slices
`array.slice(index + 1 - windowSize, index + 1)` and divides the
reduced sum (with `Number(row[field]) || 0` per row) by `windowSize`. -/
def movingAverage (data : List Row) (windowSize : ℕ) (field : String) :
    List (Option ℚ) :=
  (List.range data.length).map fun index =>
    if index + 1 < windowSize then none
    else
      let window :=
        (data.drop (index + 1 - windowSize)).take (index + 1 - (index + 1 - windowSize))
      let sum := (window.map fun row => (row field).coerceOrZero).sum
      some (sum / (windowSize : ℚ))

/-- Embedding of `calculateMA` from `Frontend/src/pages/Charts.jsx`:
returns `null` below the window, otherwise slices the window, keeps
only entries that are non-null non-NaN numbers (after the
`item[key] || item[key.toLowerCase()]` fallback), returns `null` when
none survive, and divides by the number of surviving values. -/
def calculateMA (data : List Row) (index period : ℕ) (key : String) :
    Option ℚ :=
  if index < period - 1 then none
  else
    let slice :=
      (data.drop (index + 1 - period)).take (index + 1 - (index + 1 - period))
    let values :=
      slice.filterMap fun item => ((item key).orJs (item key.toLower)).toNumOpt
    if values.length = 0 then none
    else some (values.sum / (values.length : ℚ))

/-- Shape of the backend's JSON body for `POST /api/predict` as read by
the frontend: an optional `success` flag, a `prediction` value, the
echoed `symbol`, and an optional `input_features` map. -/
structure BackendResponse where
  success : Option Bool
  prediction : JsVal
  symbol : JsVal
  input_features : Option (List (String × ℚ))
deriving DecidableEq, Repr

/-- The two possible shapes `submitPrediction` returns to its caller. -/
inductive SubmitResult where
  | reshaped : JsVal → JsVal → List (String × ℚ) → SubmitResult
  | raw : BackendResponse → SubmitResult
deriving DecidableEq, Repr

/-- Embedding of the response-reshaping tail of `submitPrediction` in
the frontend API service (`extractData` is the identity on the response
body): when `data.success && data.prediction` is truthy it returns
`{predicted_close, name, used_lags: data.input_features || {}}`,
otherwise the raw body. -/
def submitPredictionShape (data : BackendResponse) : SubmitResult :=
  if data.success.getD false && data.prediction.truthy then
    SubmitResult.reshaped data.prediction data.symbol (data.input_features.getD [])
  else
    SubmitResult.raw data

/-- Modelled from the spec: a `MarketObservation` row of the Dataset
Accessor (backend `dataset.csv` access code is not in the shipped
sources). Dates are calendar dates modelled as epoch-day integers. -/
structure MarketObservation where
  symbol : String
  date : ℤ
  open_ : ℚ
  high : ℚ
  low : ℚ
  close : ℚ
  volume : ℚ
deriving DecidableEq, Repr

/-- Modelled from the spec: the error taxonomy of section 7 of the
specification (backend error classes are not in the shipped sources). -/
inductive PredictError where
  | unknownSymbol : String → PredictError
  | symbolNotFound : String → PredictError
  | invalidInput : List String → PredictError
  | modelInvocation : PredictError
deriving DecidableEq, Repr

/-- Ordering used by the Dataset Accessor query: `obsGE a b` holds when
`a` is at least as recent as `b` (descending-by-date order). -/
def obsGE (a b : MarketObservation) : Prop := b.date ≤ a.date

instance : DecidableRel obsGE := fun a b =>
  inferInstanceAs (Decidable (b.date ≤ a.date))

instance : IsTotal MarketObservation obsGE :=
  ⟨fun a b => le_total b.date a.date⟩

instance : IsTrans MarketObservation obsGE :=
  ⟨fun _ _ _ hab hbc => le_trans hbc hab⟩

/-- Modelled from the spec: all observations of a symbol held by the
Dataset Accessor. -/
def symbolObs (ds : List MarketObservation) (sym : String) :
    List MarketObservation :=
  ds.filter fun o => o.symbol == sym

/-- Modelled from the spec: the observations of `sym` dated strictly
before `asOf` (the Lag Resolver's query set, before ordering). -/
def priorAll (ds : List MarketObservation) (sym : String) (asOf : ℤ) :
    List MarketObservation :=
  (symbolObs ds sym).filter fun o => decide (o.date < asOf)

/-- Modelled from the spec: the Dataset Accessor query result, the prior
observations ordered descending by date. -/
def priorObs (ds : List MarketObservation) (sym : String) (asOf : ℤ) :
    List MarketObservation :=
  List.insertionSort obsGE (priorAll ds sym asOf)

/-- Result of the Lag Resolver: the lag values most-recent first, and a
parallel list of flags marking which slots were padded with the
sentinel rather than backed by a real prior observation. -/
structure LagResult where
  lags : List ℚ
  defaulted : List Bool
deriving DecidableEq, Repr

/-- The `used_lags` transparency map of a lag result: entry `i` is
`(lag<i+1>, value, defaulted?)`. -/
def LagResult.usedLags (r : LagResult) : List (String × ℚ × Bool) :=
  (List.range r.lags.length).map fun i =>
    ("lag" ++ toString (i + 1), r.lags.getD i 0, r.defaulted.getD i false)

/-- Modelled from the spec: `resolve_lags` of section 4.2 (backend
`predict.py` is not in the shipped sources). Fails with
`SymbolNotFoundError` when the symbol has zero historical observations;
otherwise takes the first `depth` closes of the prior observations
ordered descending by date, padding missing slots with the most recent
available close (or zero when none exists at all) and flagging padded
slots as defaulted. -/
def resolve_lags (ds : List MarketObservation) (sym : String) (asOf : ℤ)
    (depth : ℕ := 3) : Except PredictError LagResult :=
  if (symbolObs ds sym).isEmpty then
    Except.error (PredictError.symbolNotFound sym)
  else
    let closes := ((priorObs ds sym asOf).take depth).map (·.close)
    let sentinel := closes.headD 0
    Except.ok
      { lags := (List.range depth).map fun i => closes.getD i sentinel
        defaulted := (List.range depth).map fun i => decide (closes.length ≤ i) }

/-- Modelled from the spec: the Symbol Encoder's fixed vocabulary built
once at load time from the training symbols, in the style of a
scikit-learn label encoder (sorted unique symbol list). -/
def buildVocab (symbols : List String) : List String :=
  List.insertionSort (· ≤ ·) symbols.dedup

/-- Modelled from the spec: `encode` of section 4.1; a known symbol maps
to its fixed non-negative integer code, an unknown symbol fails with
`UnknownSymbolError` and is never auto-assigned. -/
def encode (vocab : List String) (s : String) : Except PredictError ℕ :=
  if s ∈ vocab then Except.ok (vocab.indexOf s)
  else Except.error (PredictError.unknownSymbol s)

/-- Modelled from the spec: a transient `PredictionRequest`; the four
required market fields arrive as raw JavaScript values still to be
validated, and `close` is optional and informational only. -/
structure PredictionRequest where
  date : ℤ
  symbol : String
  open_ : JsVal
  high : JsVal
  low : JsVal
  volume : JsVal
  close : Option ℚ
deriving DecidableEq, Repr

/-- A raw request field is usable when it is present and numeric. -/
def numericOf : JsVal → Option ℚ
  | .num q => some q
  | _ => none

/-- Modelled from the spec: names of the required fields that are
missing or non-numeric in a request, in the fixed field order. -/
def invalidFields (r : PredictionRequest) : List String :=
  (if (numericOf r.open_).isNone then ["open"] else []) ++
    (if (numericOf r.high).isNone then ["high"] else []) ++
      (if (numericOf r.low).isNone then ["low"] else []) ++
        (if (numericOf r.volume).isNone then ["volume"] else [])

/-- Modelled from the spec: the numeric encoding of the request date
used at training time; the About page documents it as epoch seconds, so
an epoch-day date contributes 86400 seconds per day. -/
def dateToNumeric (d : ℤ) : ℚ := ((86400 * d : ℤ) : ℚ)

/-- Modelled from the spec: `assemble` of section 4.3; validates that
`open`, `high`, `low`, `volume` are present and numeric (failing with
`InvalidInputError` listing the offending fields) and builds the
fixed-order feature vector `[date_as_numeric, open, high, low, volume,
symbol_code, close_lag_1, close_lag_2, close_lag_3]`. The vector is a
list of rationals, so every field is a finite number and none is null. -/
def assemble (r : PredictionRequest) (code : ℕ) (lags : List ℚ) :
    Except PredictError (List ℚ) :=
  match numericOf r.open_, numericOf r.high, numericOf r.low,
      numericOf r.volume with
  | some o, some h, some l, some v =>
      Except.ok ([dateToNumeric r.date, o, h, l, v, (code : ℚ)] ++ lags)
  | _, _, _, _ => Except.error (PredictError.invalidInput (invalidFields r))

/-- Side effects the Prediction Orchestrator can trigger downstream:
a Dataset Accessor query or a Model Invoker call. -/
inductive Effect where
  | datasetQuery : Effect
  | modelCall : Effect
deriving DecidableEq, Repr

/-- Modelled from the spec: the structured `PredictionResult`. -/
structure PredictionResult where
  predicted_close : ℚ
  symbol : String
  used_lags : List (String × ℚ × Bool)
deriving DecidableEq, Repr

/-- Modelled from the spec: the Prediction Orchestrator `predict` of
section 4.4, instrumented with the trace of downstream effects it
performs: encode the symbol first (an unknown symbol fails before any
dataset query or model call), then resolve lags via one Dataset
Accessor query, then assemble the vector, then invoke the model once. -/
def predict (vocab : List String) (ds : List MarketObservation)
    (model : List ℚ → ℚ) (r : PredictionRequest) :
    Except PredictError PredictionResult × List Effect :=
  match encode vocab r.symbol with
  | Except.error e => (Except.error e, [])
  | Except.ok code =>
      match resolve_lags ds r.symbol r.date 3 with
      | Except.error e => (Except.error e, [Effect.datasetQuery])
      | Except.ok lr =>
          match assemble r code lr.lags with
          | Except.error e => (Except.error e, [Effect.datasetQuery])
          | Except.ok fv =>
              (Except.ok ⟨model fv, r.symbol, lr.usedLags⟩,
                [Effect.datasetQuery, Effect.modelCall])

/-- The spec's end-to-end scenario dataset: symbol PPL with closes
100, 102, 101 on the consecutive days 2024-01-01 .. 2024-01-03
(epoch days 19723 .. 19725). -/
def scenarioDS : List MarketObservation :=
  [⟨"PPL", 19723, 99, 101, 98, 100, 40000⟩,
    ⟨"PPL", 19724, 100, 103, 99, 102, 45000⟩,
    ⟨"PPL", 19725, 102, 104, 100, 101, 47000⟩]

/-- The spec's end-to-end scenario request for 2024-01-04
(epoch day 19726). -/
def scenarioReq : PredictionRequest :=
  ⟨19726, "PPL", JsVal.num 103, JsVal.num 105, JsVal.num 102,
    JsVal.num 50000, none⟩

/-- The scenario vocabulary: PPL is the only training symbol. -/
def scenarioVocab : List String := buildVocab ["PPL"]

instance {e a : Type} [DecidableEq e] [DecidableEq a] :
    DecidableEq (Except e a) := fun x y =>
  match x, y with
  | Except.ok u, Except.ok v =>
      if h : u = v then isTrue (by rw [h])
      else isFalse (by intro hc; cases hc; exact h rfl)
  | Except.error u, Except.error v =>
      if h : u = v then isTrue (by rw [h])
      else isFalse (by intro hc; cases hc; exact h rfl)
  | Except.ok _, Except.error _ => isFalse (by intro hc; cases hc)
  | Except.error _, Except.ok _ => isFalse (by intro hc; cases hc)

lemma drop_take_eq_range_getD {α : Type} (l : List α) (d : α) (a w : ℕ)
    (h : a + w ≤ l.length) :
    (l.drop a).take w = (List.range w).map fun j => l.getD (a + j) d := by
  apply List.ext_getElem
  · simp only [List.length_take, List.length_drop, List.length_map,
      List.length_range]
    omega
  · intro j h1 h2
    have hj : j < w := by
      simpa using h2
    have haj : a + j < l.length := by omega
    rw [List.getElem_take, List.getElem_drop, List.getElem_map,
      List.getElem_range, List.getD_eq_getElem l d haj]

lemma movingAverage_entry (data : List Row) (w : ℕ) (f : String) (i : ℕ)
    (hi : i < data.length) :
    (movingAverage data w f)[i]? =
      some (if i + 1 < w then none
        else some ((((data.drop (i + 1 - w)).take w).map fun row =>
            (row f).coerceOrZero).sum / (w : ℚ))) := by
  unfold movingAverage
  rw [List.getElem?_map, List.getElem?_range hi]
  by_cases h : i + 1 < w
  · simp [h]
  · have hw : w ≤ i + 1 := Nat.le_of_not_lt h
    simp [h, Nat.sub_sub_self hw]

lemma filterMap_close_eq_map (l : List Row)
    (h : ∀ row ∈ l, ∃ q : ℚ, q ≠ 0 ∧ row ("Close") = JsVal.num q) :
    (l.filterMap fun item =>
        ((item ("Close")).orJs (item (String.toLower ("Close")))).toNumOpt) =
      l.map fun item => (item ("Close")).coerceOrZero := by
  induction l with
  | nil => simp
  | cons a t ih =>
      obtain ⟨q, hq0, hq⟩ := h a (List.mem_cons_self a t)
      rw [List.filterMap_cons, List.map_cons]
      rw [show ((a ("Close")).orJs
            (a (String.toLower ("Close")))).toNumOpt = some q by
          simp [JsVal.orJs, JsVal.truthy, JsVal.toNumOpt, hq, hq0]]
      rw [show (a ("Close")).coerceOrZero = q by simp [hq, JsVal.coerceOrZero]]
      rw [ih fun r hr => h r (List.mem_cons_of_mem a hr)]

end IDS

namespace IDS

/-- C9: for every data array, window size w ≥ 1 and field name f,
`movingAverage data w f` has the same length as `data`; entry i is null
when i + 1 < w, and otherwise is the arithmetic mean, over the
w-element window of rows at indices i+1-w .. i, of the numeric coercion
of row[f], with missing or non-numeric values counted as 0. -/
theorem movingAverage_spec (data : List Row) (w : ℕ) (hw : 1 ≤ w)
    (f : String) :
    (movingAverage data w f).length = data.length ∧
      ∀ i, i < data.length →
        (movingAverage data w f)[i]? =
          some (if i + 1 < w then none
            else some (((List.range w).map fun j =>
                ((data.getD (i + 1 - w + j) dummyRow) f).coerceOrZero).sum /
              (w : ℚ))) := by
  constructor
  · simp [movingAverage]
  · intro i hi
    rw [movingAverage_entry data w f i hi]
    by_cases h : i + 1 < w
    · simp [h]
    · have hle : i + 1 - w + w ≤ data.length := by omega
      rw [drop_take_eq_range_getD data dummyRow (i + 1 - w) w hle,
        List.map_map]
      rfl

/-- Closed instance of `movingAverage_spec` at a concrete two-row data
array with window size 2. -/
theorem movingAverage_spec_witness :
    (movingAverage
        [fun s => if s = "Close" then JsVal.num 2 else JsVal.undef,
          fun s => if s = "Close" then JsVal.num 4 else JsVal.undef]
        2 ("Close")).length = 2 ∧
      ∀ i, i < 2 →
        (movingAverage
            [fun s => if s = "Close" then JsVal.num 2 else JsVal.undef,
              fun s => if s = "Close" then JsVal.num 4 else JsVal.undef]
            2 ("Close"))[i]? =
          some (if i + 1 < 2 then none
            else some (((List.range 2).map fun j =>
                (([fun s => if s = "Close" then JsVal.num 2 else JsVal.undef,
                    fun s => if s = "Close" then JsVal.num 4 else JsVal.undef].getD
                    (i + 1 - 2 + j) dummyRow) ("Close")).coerceOrZero).sum /
              (2 : ℚ))) :=
  movingAverage_spec
    [fun s => if s = "Close" then JsVal.num 2 else JsVal.undef,
      fun s => if s = "Close" then JsVal.num 4 else JsVal.undef]
    2 (by decide) ("Close")

/-- C10: when every row's Close entry is a finite non-zero number, the
Charts page's `calculateMA` with period p agrees with the formatter's
`movingAverage` with window p at every index of the data. -/
theorem calculateMA_refines_movingAverage (data : List Row) (p : ℕ)
    (hp : 1 ≤ p) (i : ℕ) (hi : i < data.length)
    (hC : ∀ row ∈ data, ∃ q : ℚ, q ≠ 0 ∧ row ("Close") = JsVal.num q) :
    (movingAverage data p ("Close"))[i]? =
      some (calculateMA data i p ("Close")) := by
  rw [movingAverage_entry data p ("Close") i hi]
  unfold calculateMA
  by_cases h : i + 1 < p
  · have h2 : i < p - 1 := by omega
    simp [h, h2]
  · have h2 : ¬ i < p - 1 := by omega
    have hw : p ≤ i + 1 := Nat.le_of_not_lt h
    have hsub : i + 1 - (i + 1 - p) = p := Nat.sub_sub_self hw
    have hmem : ∀ row ∈ (data.drop (i + 1 - p)).take p,
        ∃ q : ℚ, q ≠ 0 ∧ row ("Close") = JsVal.num q :=
      fun row hr =>
        hC row (List.mem_of_mem_drop (List.mem_of_mem_take hr))
    have hlen : ((data.drop (i + 1 - p)).take p).length = p := by
      simp only [List.length_take, List.length_drop]
      omega
    have hp0 : ¬ (p = 0) := by omega
    simp only [hsub, if_neg h, if_neg h2, filterMap_close_eq_map _ hmem,
      List.length_map, hlen, if_neg hp0]

/-- Closed instance of `calculateMA_refines_movingAverage` at a concrete
two-row data array with period 2 and index 1. -/
theorem calculateMA_refines_movingAverage_witness :
    (movingAverage
        [fun s => if s = "Close" then JsVal.num 2 else JsVal.undef,
          fun s => if s = "Close" then JsVal.num 4 else JsVal.undef]
        2 ("Close"))[1]? =
      some (calculateMA
        [fun s => if s = "Close" then JsVal.num 2 else JsVal.undef,
          fun s => if s = "Close" then JsVal.num 4 else JsVal.undef]
        1 2 ("Close")) :=
  calculateMA_refines_movingAverage
    [fun s => if s = "Close" then JsVal.num 2 else JsVal.undef,
      fun s => if s = "Close" then JsVal.num 4 else JsVal.undef]
    2 (by decide) 1 (by decide)
    (by
      intro row hr
      simp only [List.mem_cons, List.not_mem_nil, or_false] at hr
      rcases hr with h | h
      · exact ⟨2, by decide, by rw [h]; simp⟩
      · exact ⟨4, by decide, by rw [h]; simp⟩)

/-- C8: `submitPrediction` returns the reshaped
`{predicted_close, name, used_lags}` result exactly when the backend
body has a `success` flag equal to true and a truthy `prediction`;
otherwise (in particular when `prediction` is 0 even with
`success: true`, or when the `success` flag is absent) the raw backend
payload is returned unchanged, with no reshaping; and in the reshaped
case `used_lags` is the backend's entire `input_features` map. -/
theorem submitPrediction_reshape :
    (∀ d : BackendResponse,
        (d.success = some true ∧ d.prediction.truthy = true →
          submitPredictionShape d =
            SubmitResult.reshaped d.prediction d.symbol
              (d.input_features.getD [])) ∧
        (d.success ≠ some true ∨ d.prediction.truthy = false →
          submitPredictionShape d = SubmitResult.raw d)) ∧
      submitPredictionShape
          ⟨some true, JsVal.num 0, JsVal.num 7, some [("lag1", 5)]⟩ =
        SubmitResult.raw
          ⟨some true, JsVal.num 0, JsVal.num 7, some [("lag1", 5)]⟩ ∧
      submitPredictionShape
          ⟨none, JsVal.num 9, JsVal.num 7, some [("lag1", 5)]⟩ =
        SubmitResult.raw
          ⟨none, JsVal.num 9, JsVal.num 7, some [("lag1", 5)]⟩ := by
  refine ⟨fun d => ⟨fun h => ?_, fun h => ?_⟩, by decide, by decide⟩
  · rcases h with ⟨hs, hp⟩
    simp [submitPredictionShape, hs, hp]
  · unfold submitPredictionShape
    rcases h with hs | hp
    · rw [if_neg]
      simp only [Bool.and_eq_true, not_and]
      intro hgd
      rcases hd : d.success with _ | b
      · rw [hd] at hgd; simp at hgd
      · rcases b with _ | _
        · rw [hd] at hgd; simp at hgd
        · exact absurd hd hs
    · rw [if_neg]
      simp [hp]

/-- Closed instance of `submitPrediction_reshape`: a successful body
with a truthy prediction is reshaped, keeping the whole
`input_features` map as `used_lags`. -/
theorem submitPrediction_reshape_witness :
    submitPredictionShape
        ⟨some true, JsVal.num 9, JsVal.num 7,
          some [("lag1", 5), ("open", 3)]⟩ =
      SubmitResult.reshaped (JsVal.num 9) (JsVal.num 7)
        [("lag1", 5), ("open", 3)] :=
  (submitPrediction_reshape.1
      ⟨some true, JsVal.num 9, JsVal.num 7,
        some [("lag1", 5), ("open", 3)]⟩).1
    ⟨rfl, by decide⟩

lemma range_map_getD {α : Type} (l : List α) (d : α) :
    (List.range l.length).map (fun i => l.getD i d) = l := by
  apply List.ext_getElem
  · simp
  · intro i h1 h2
    simp only [List.getElem_map, List.getElem_range]
    exact List.getD_eq_getElem l d h2

/-- C4: a request whose symbol is not in the fixed vocabulary fails with
`UnknownSymbolError` and its effect trace is empty, so no Dataset
Accessor query and no Model Invoker call happens for that request. -/
theorem predict_unknown_symbol (vocab : List String)
    (ds : List MarketObservation) (model : List ℚ → ℚ)
    (r : PredictionRequest) (h : r.symbol ∉ vocab) :
    predict vocab ds model r =
      (Except.error (PredictError.unknownSymbol r.symbol), []) := by
  unfold predict encode
  rw [if_neg h]

/-- Closed instance of `predict_unknown_symbol` at the spec's unknown
symbol ZZZ9 against the scenario vocabulary and dataset. -/
theorem predict_unknown_symbol_witness :
    predict scenarioVocab scenarioDS (fun _ => 0)
        ⟨19726, "ZZZ9", JsVal.num 103, JsVal.num 105, JsVal.num 102,
          JsVal.num 50000, none⟩ =
      (Except.error (PredictError.unknownSymbol ("ZZZ9")), []) :=
  predict_unknown_symbol scenarioVocab scenarioDS (fun _ => 0) _ (by decide)

/-- C6: the optional `close` field is informational only; `predict`
returns the same outcome (result and effect trace alike) whether
`close` is supplied or omitted, because no step of the pipeline reads
it and it is never placed into the feature vector. -/
theorem predict_close_informational (vocab : List String)
    (ds : List MarketObservation) (model : List ℚ → ℚ)
    (r : PredictionRequest) (c : ℚ) :
    predict vocab ds model { r with close := some c } =
      predict vocab ds model { r with close := none } := rfl

/-- C7: on the vocabulary fixed at load time, `encode` is total (every
known symbol gets a code inside the fixed range `[0, vocab.length)`),
deterministic (the same symbol always yields the same code), and
injective (distinct symbols get distinct codes). Codes are natural
numbers, hence non-negative. -/
theorem encode_total_deterministic_injective (syms : List String) :
    (∀ s ∈ buildVocab syms, ∃ c, encode (buildVocab syms) s = Except.ok c ∧
        c < (buildVocab syms).length) ∧
    (∀ s c₁ c₂, encode (buildVocab syms) s = Except.ok c₁ →
        encode (buildVocab syms) s = Except.ok c₂ → c₁ = c₂) ∧
    (∀ a b c, encode (buildVocab syms) a = Except.ok c →
        encode (buildVocab syms) b = Except.ok c → a = b) := by
  refine ⟨?_, ?_, ?_⟩
  · intro s hs
    refine ⟨(buildVocab syms).indexOf s, ?_, ?_⟩
    · unfold encode; rw [if_pos hs]
    · exact List.indexOf_lt_length.mpr hs
  · intro s c₁ c₂ h1 h2
    rw [h1] at h2
    injection h2
  · intro a b c h1 h2
    unfold encode at h1 h2
    split_ifs at h1 h2 with ha hb
    · injection h1 with h1e
      injection h2 with h2e
      exact (List.indexOf_inj ha hb).mp (by rw [h1e, h2e])

/-- Closed instance of `encode_total_deterministic_injective`: PPL is
encoded into the fixed code range of the one-symbol vocabulary. -/
theorem encode_total_deterministic_injective_witness :
    ∃ c, encode (buildVocab ["PPL"]) ("PPL") = Except.ok c ∧
      c < (buildVocab ["PPL"]).length :=
  (encode_total_deterministic_injective ["PPL"]).1 ("PPL") (by decide)

/-- C1: whenever `assemble` succeeds, the produced feature vector is
exactly `[date_as_numeric, open, high, low, volume, symbol_code]`
followed by the lag values, with each entry a rational (hence a finite
number, never null); and on the spec's end-to-end scenario the pipeline
assembles `[numeric date, 103, 105, 102, 50000, PPL code, 101, 102,
100]` with the PPL code being 0. -/
theorem assemble_fixed_order :
    (∀ (r : PredictionRequest) (code : ℕ) (lags : List ℚ) (fv : List ℚ),
        assemble r code lags = Except.ok fv →
        ∃ o h l v, numericOf r.open_ = some o ∧ numericOf r.high = some h ∧
          numericOf r.low = some l ∧ numericOf r.volume = some v ∧
          fv = [dateToNumeric r.date, o, h, l, v, (code : ℚ)] ++ lags) ∧
      (encode scenarioVocab ("PPL") = Except.ok 0 ∧
        resolve_lags scenarioDS ("PPL") 19726 3 =
          Except.ok ⟨[101, 102, 100], [false, false, false]⟩ ∧
        assemble scenarioReq 0 [101, 102, 100] =
          Except.ok [dateToNumeric 19726, 103, 105, 102, 50000, 0,
            101, 102, 100]) := by
  constructor
  · intro r code lags fv hok
    unfold assemble at hok
    split at hok
    · next o h l v ho hh hl hv =>
        injection hok with hfv
        exact ⟨o, h, l, v, ho, hh, hl, hv, hfv.symm⟩
    · exact Except.noConfusion hok
  · exact ⟨by decide, by decide, by decide⟩

/-- Closed instance of `assemble_fixed_order` at the scenario request
and its resolved lags. -/
theorem assemble_fixed_order_witness :
    ∃ o h l v, numericOf scenarioReq.open_ = some o ∧
      numericOf scenarioReq.high = some h ∧
      numericOf scenarioReq.low = some l ∧
      numericOf scenarioReq.volume = some v ∧
      [dateToNumeric 19726, 103, 105, 102, 50000, 0, 101, 102, 100] =
        [dateToNumeric scenarioReq.date, o, h, l, v, ((0 : ℕ) : ℚ)] ++
          [101, 102, 100] :=
  assemble_fixed_order.1 scenarioReq 0 [101, 102, 100]
    [dateToNumeric 19726, 103, 105, 102, 50000, 0, 101, 102, 100] (by decide)

/-- C5: a request with a missing or non-numeric required field makes
`assemble` fail with `InvalidInputError`, whose payload contains
exactly the names of the offending fields among open, high, low,
volume; in particular a missing volume puts the string volume in the
list. -/
theorem assemble_invalid_input (r : PredictionRequest) (code : ℕ)
    (lags : List ℚ)
    (h : numericOf r.open_ = none ∨ numericOf r.high = none ∨
      numericOf r.low = none ∨ numericOf r.volume = none) :
    assemble r code lags =
      Except.error (PredictError.invalidInput (invalidFields r)) ∧
    (∀ f : String, f ∈ invalidFields r ↔
      ((f = "open" ∧ numericOf r.open_ = none) ∨
        (f = "high" ∧ numericOf r.high = none) ∨
        (f = "low" ∧ numericOf r.low = none) ∨
        (f = "volume" ∧ numericOf r.volume = none))) ∧
    (numericOf r.volume = none → "volume" ∈ invalidFields r) := by
  have hmem : ∀ f : String, f ∈ invalidFields r ↔
      ((f = "open" ∧ numericOf r.open_ = none) ∨
        (f = "high" ∧ numericOf r.high = none) ∨
        (f = "low" ∧ numericOf r.low = none) ∨
        (f = "volume" ∧ numericOf r.volume = none)) := by
    intro f
    unfold invalidFields
    rcases ho : numericOf r.open_ with _ | o <;>
      rcases hh : numericOf r.high with _ | hq <;>
        rcases hl : numericOf r.low with _ | lq <;>
          rcases hv : numericOf r.volume with _ | vq <;>
            simp
  refine ⟨?_, hmem,
    fun hv => (hmem ("volume")).mpr (Or.inr (Or.inr (Or.inr ⟨rfl, hv⟩)))⟩
  unfold assemble
  rcases ho : numericOf r.open_ with _ | o <;>
    rcases hh : numericOf r.high with _ | hq <;>
      rcases hl : numericOf r.low with _ | lq <;>
        rcases hv : numericOf r.volume with _ | vq <;>
          simp_all

/-- Closed instance of `assemble_invalid_input` at a request whose
volume is missing: the error lists the volume field. -/
theorem assemble_invalid_input_witness :
    assemble ⟨19726, "PPL", JsVal.num 1, JsVal.num 2, JsVal.num 3,
        JsVal.undef, none⟩ 0 [] =
      Except.error (PredictError.invalidInput (invalidFields
        ⟨19726, "PPL", JsVal.num 1, JsVal.num 2, JsVal.num 3,
          JsVal.undef, none⟩)) ∧
    (∀ f : String, f ∈ invalidFields ⟨19726, "PPL", JsVal.num 1,
        JsVal.num 2, JsVal.num 3, JsVal.undef, none⟩ ↔
      ((f = "open" ∧ numericOf (JsVal.num 1) = none) ∨
        (f = "high" ∧ numericOf (JsVal.num 2) = none) ∨
        (f = "low" ∧ numericOf (JsVal.num 3) = none) ∨
        (f = "volume" ∧ numericOf JsVal.undef = none))) ∧
    (numericOf JsVal.undef = none → "volume" ∈ invalidFields
      ⟨19726, "PPL", JsVal.num 1, JsVal.num 2, JsVal.num 3,
        JsVal.undef, none⟩) :=
  assemble_invalid_input _ 0 []
    (Or.inr (Or.inr (Or.inr (by decide))))

/-- C3: for a symbol with exactly one prior observation, `resolve_lags`
at depth 3 returns that observation's close as lag 1 and repeats it (the
most recent available close, the documented sentinel) for lags 2 and 3,
and the `used_lags` map flags lag 2 and lag 3 as defaulted. -/
theorem resolve_lags_one_prior (ds : List MarketObservation) (sym : String)
    (D : ℤ) (h1 : (priorAll ds sym D).length = 1) :
    ∃ o r, priorAll ds sym D = [o] ∧
      resolve_lags ds sym D 3 = Except.ok r ∧
      r.lags = [o.close, o.close, o.close] ∧
      r.defaulted = [false, true, true] ∧
      r.usedLags = [("lag1", o.close, false), ("lag2", o.close, true),
        ("lag3", o.close, true)] := by
  obtain ⟨o, ho⟩ : ∃ o, priorAll ds sym D = [o] := by
    rcases hp : priorAll ds sym D with _ | ⟨o, t⟩
    · rw [hp] at h1; simp at h1
    · rw [hp] at h1
      simp only [List.length_cons, Nat.add_left_eq_self,
        List.length_eq_zero] at h1
      exact ⟨o, by rw [h1]⟩
  have hObs : priorObs ds sym D = [o] := by
    unfold priorObs
    rw [ho]
    rfl
  have hne : ¬ ((symbolObs ds sym).isEmpty = true) := by
    intro hemp
    have hmem : o ∈ priorAll ds sym D := by rw [ho]; simp
    have : o ∈ symbolObs ds sym := List.mem_of_mem_filter hmem
    rw [List.isEmpty_iff.mp hemp] at this
    simp at this
  refine ⟨o, ⟨[o.close, o.close, o.close], [false, true, true]⟩, ho, ?_, rfl,
    rfl, ?_⟩
  · unfold resolve_lags
    rw [if_neg hne, hObs]
    simp [List.range_succ]
  · unfold LagResult.usedLags
    simp only [List.length_cons, List.length_nil]
    rw [show List.range (0 + 1 + 1 + 1) = [0, 1, 2] by decide]
    simp only [List.map_cons, List.map_nil, List.getD]
    norm_num
    exact ⟨by decide, by decide, by decide⟩

/-- Closed instance of `resolve_lags_one_prior` on a one-row dataset. -/
theorem resolve_lags_one_prior_witness :
    ∃ o r, priorAll [(⟨"PPL", 19723, 99, 101, 98, 100, 40000⟩ :
        MarketObservation)] ("PPL") 19726 = [o] ∧
      resolve_lags [(⟨"PPL", 19723, 99, 101, 98, 100, 40000⟩ :
        MarketObservation)] ("PPL") 19726 3 = Except.ok r ∧
      r.lags = [o.close, o.close, o.close] ∧
      r.defaulted = [false, true, true] ∧
      r.usedLags = [("lag1", o.close, false), ("lag2", o.close, true),
        ("lag3", o.close, true)] :=
  resolve_lags_one_prior [⟨"PPL", 19723, 99, 101, 98, 100, 40000⟩]
    ("PPL") 19726 (by decide)

/-- C2: for a symbol with at least 3 observations strictly before D
(dates unique per symbol, the data-model invariant), `resolve_lags`
returns exactly the first 3 closes of the prior observations ordered
descending by date, none defaulted; the 3 rows carry strictly
decreasing dates (most-recent first), and every other prior observation
is strictly older than each of the 3 returned ones. -/
theorem resolve_lags_three_prior (ds : List MarketObservation) (sym : String)
    (D : ℤ)
    (hnd : ((symbolObs ds sym).map (·.date)).Nodup)
    (h3 : 3 ≤ (priorAll ds sym D).length) :
    ∃ r, resolve_lags ds sym D 3 = Except.ok r ∧
      r.lags = ((priorObs ds sym D).take 3).map (·.close) ∧
      r.lags.length = 3 ∧
      r.defaulted = [false, false, false] ∧
      ((priorObs ds sym D).take 3).Pairwise (fun a b => b.date < a.date) ∧
      (∀ o ∈ priorAll ds sym D,
        (∀ t ∈ (priorObs ds sym D).take 3, o.date ≠ t.date) →
        ∀ t ∈ (priorObs ds sym D).take 3, o.date < t.date) := by
  have hperm : (priorObs ds sym D).Perm (priorAll ds sym D) :=
    List.perm_insertionSort obsGE (priorAll ds sym D)
  have hlenP : 3 ≤ (priorObs ds sym D).length := by
    rw [hperm.length_eq]; exact h3
  have hne : ¬ ((symbolObs ds sym).isEmpty = true) := by
    intro hemp
    obtain ⟨o, hoP⟩ := List.exists_mem_of_length_pos
      (show 0 < (priorAll ds sym D).length by omega)
    have : o ∈ symbolObs ds sym := List.mem_of_mem_filter hoP
    rw [List.isEmpty_iff.mp hemp] at this
    simp at this
  have hcl : (((priorObs ds sym D).take 3).map (·.close)).length = 3 := by
    simp only [List.length_map, List.length_take]
    omega
  have hlags : (List.range 3).map
      (fun i => (((priorObs ds sym D).take 3).map (·.close)).getD i
        ((((priorObs ds sym D).take 3).map (·.close)).headD 0)) =
      ((priorObs ds sym D).take 3).map (·.close) := by
    have := range_map_getD (((priorObs ds sym D).take 3).map (·.close))
      ((((priorObs ds sym D).take 3).map (·.close)).headD 0)
    rw [hcl] at this
    exact this
  have hdef : (List.range 3).map
      (fun i => decide ((((priorObs ds sym D).take 3).map (·.close)).length ≤ i)) =
      [false, false, false] := by
    rw [show List.range 3 = [0, 1, 2] by decide]
    simp only [List.map_cons, List.map_nil, hcl]
    decide
  have hsorted : List.Pairwise obsGE (priorObs ds sym D) :=
    List.sorted_insertionSort obsGE (priorAll ds sym D)
  have hndP : ((priorObs ds sym D).map (·.date)).Nodup := by
    have hsub : (priorAll ds sym D).Sublist (symbolObs ds sym) :=
      List.filter_sublist (symbolObs ds sym)
    have hndA : ((priorAll ds sym D).map (·.date)).Nodup :=
      (hsub.map (·.date)).nodup hnd
    exact ((hperm.map (·.date)).nodup_iff).mpr hndA
  have hstrict : (priorObs ds sym D).Pairwise (fun a b => b.date < a.date) := by
    have hne2 : (priorObs ds sym D).Pairwise (fun a b => a.date ≠ b.date) :=
      List.pairwise_map.mp hndP
    exact (hsorted.and hne2).imp
      (fun {a b} hab => lt_of_le_of_ne hab.1 (fun hc => hab.2 hc.symm))
  have hstrictTake : ((priorObs ds sym D).take 3).Pairwise
      (fun a b => b.date < a.date) :=
    hstrict.sublist (List.take_sublist 3 (priorObs ds sym D))
  refine ⟨⟨((priorObs ds sym D).take 3).map (·.close), [false, false, false]⟩,
    ?_, rfl, hcl, rfl, hstrictTake, ?_⟩
  · unfold resolve_lags
    rw [if_neg hne]
    simp only [hlags, hdef]
  · intro o hoP hneq t ht
    have hoObs : o ∈ priorObs ds sym D := hperm.mem_iff.mpr hoP
    have hsplit : (priorObs ds sym D).take 3 ++ (priorObs ds sym D).drop 3 =
        priorObs ds sym D := List.take_append_drop 3 (priorObs ds sym D)
    have hstrict2 := hstrict
    rw [← hsplit] at hstrict2 hoObs
    rcases List.mem_append.mp hoObs with hmem | hmem
    · exact absurd rfl (hneq o hmem)
    · exact (List.pairwise_append.mp hstrict2).2.2 t ht o hmem

/-- Closed instance of `resolve_lags_three_prior` on the scenario
dataset, whose PPL rows all predate the request date. -/
theorem resolve_lags_three_prior_witness :
    ∃ r, resolve_lags scenarioDS ("PPL") 19726 3 = Except.ok r ∧
      r.lags = ((priorObs scenarioDS ("PPL") 19726).take 3).map (·.close) ∧
      r.lags.length = 3 ∧
      r.defaulted = [false, false, false] ∧
      ((priorObs scenarioDS ("PPL") 19726).take 3).Pairwise
        (fun a b => b.date < a.date) ∧
      (∀ o ∈ priorAll scenarioDS ("PPL") 19726,
        (∀ t ∈ (priorObs scenarioDS ("PPL") 19726).take 3,
          o.date ≠ t.date) →
        ∀ t ∈ (priorObs scenarioDS ("PPL") 19726).take 3,
          o.date < t.date) :=
  resolve_lags_three_prior scenarioDS ("PPL") 19726 (by decide) (by decide)

end IDS
